import Mathlib

/-
Verification development for the RESP codec of rust-simple-redis
(src/resp.rs, src/resp/decode.rs, src/resp/encode.rs).

Modelling conventions:
* Wire bytes are `List Nat` with each element < 256 (buffers are only ever
  built from ASCII literals and copied slices, so no arithmetic on byte
  values occurs and no wrap-around can arise).
* Rust `String` payloads are represented by their UTF-8 bytes (`List Nat`).
* The mutable `BytesMut` buffer is threaded explicitly: every decoder takes
  the buffer and returns the outcome paired with the buffer that remains
  after the call (split_to / advance remove a prefix; error paths that do
  not touch the buffer return it unchanged, exactly as the source does).
* A Rust panic (out-of-bounds slice index, arithmetic overflow with
  overflow checks) is modelled by the distinguished outcome `crashed`, and
  on the encoder side by `Option.none`.
* Recursion of RespFrame::decode through containers is fuel-indexed; the
  artificial outcome `fuelOut` marks fuel exhaustion and never occurs in
  any statement below (all inputs are decoded with ample fuel).
* `Vec<RespFrame>` and the `BTreeMap` entry storage appear inside `Frame`
  as the isomorphic mutually-inductive lists `FrameList` / `EntryList`
  (Lean cannot do structural recursion through a nested `List`); plain
  `List`-valued builders (`FrameList.ofList`, `EntryList.ofList`) connect
  them to ordinary list reasoning.
* `f64` payloads are carried as their IEEE-754 bit pattern (a `Nat`) and
  the float-to-decimal rendering used by the `f64` encoder is an explicit
  parameter `fmt`: floating-point formatting has no shallow embedding, and
  no theorem below depends on it.
-/

/-- ASCII bytes of a Lean string literal (used only for ASCII text, where
`Char.toNat` is exactly the UTF-8 byte). -/
def strBytes (s : String) : List Nat := s.data.map Char.toNat

/-- The two-byte CRLF terminator, `const CRLF: &[u8] = b"\r\n"`. -/
def crlfB : List Nat := [13, 10]

/-- Mirror of `RespError` (src/resp.rs); payload strings are dropped, only
the discriminant matters to the spec (NotComplete = NeedMoreData, every
other constructor = MalformedFrame). -/
inductive RErr where
  | invalidFrame
  | invalidFrameType
  | invalidFrameLength
  | notComplete
  | parseIntError
  | parseFloatError
  | utf8Error
deriving DecidableEq, Repr

/-- Outcome of a decoder call: `ok`/`err` mirror `Result<_, RespError>`,
`crashed` models a Rust panic (slice out of bounds, arithmetic overflow),
`fuelOut` is the artificial fuel-exhaustion marker of the embedding. -/
inductive DOut (α : Type) where
  | ok : α → DOut α
  | err : RErr → DOut α
  | crashed : DOut α
  | fuelOut : DOut α
deriving Repr

mutual

/-- Mirror of `RespFrame` (src/resp.rs): the closed 13-variant frame union.
Text payloads are UTF-8 bytes, the `double` payload is the bit pattern of
the `f64`, `array`/`set` hold a `Vec<RespFrame>` as a `FrameList`, and
`map` holds the `BTreeMap<String, RespFrame>` as a key-sorted `EntryList`
(see `btreeInsert`). -/
inductive Frame where
  | simpleString (s : List Nat)
  | simpleError (s : List Nat)
  | bulkError (s : List Nat)
  | integer (n : Int)
  | bulkString (b : List Nat)
  | nullBulkString
  | array (items : FrameList)
  | nullArray
  | null
  | boolean (b : Bool)
  | double (bits : Nat)
  | map (entries : EntryList)
  | set (items : FrameList)

/-- A `Vec<RespFrame>`, isomorphic to `List Frame`. -/
inductive FrameList where
  | nil
  | cons (f : Frame) (fs : FrameList)

/-- The entry sequence of a `BTreeMap<String, RespFrame>` in key order,
isomorphic to `List (List Nat × Frame)`. -/
inductive EntryList where
  | nil
  | cons (key : List Nat) (val : Frame) (rest : EntryList)

end

/-- Build a `FrameList` from a plain list. -/
def FrameList.ofList : List Frame → FrameList
  | [] => .nil
  | f :: fs => .cons f (FrameList.ofList fs)

/-- Build an `EntryList` from a plain association list. -/
def EntryList.ofList : List (List Nat × Frame) → EntryList
  | [] => .nil
  | (k, v) :: rest => .cons k v (EntryList.ofList rest)

/-- A valid UTF-8 continuation byte (0x80 ..= 0xBF). -/
def contOk (b : Nat) : Bool := 128 ≤ b && b ≤ 191

/-- Admissible second byte of a three-byte UTF-8 sequence with lead `b`
(narrower ranges for 0xE0 and 0xED, per the UTF-8 table used by
`core::str::validations`). -/
def cont3Ok (b c : Nat) : Bool :=
  if b = 224 then 160 ≤ c && c ≤ 191
  else if b = 237 then 128 ≤ c && c ≤ 159
  else contOk c

/-- Admissible second byte of a four-byte UTF-8 sequence with lead `b`. -/
def cont4Ok (b c : Nat) : Bool :=
  if b = 240 then 144 ≤ c && c ≤ 191
  else if b = 244 then 128 ≤ c && c ≤ 143
  else contOk c

/-- UTF-8 bytes of U+FFFD, the replacement character. -/
def repl : List Nat := [239, 191, 189]

/-- Mirror of `String::from_utf8_lossy`, producing the UTF-8 bytes of the
resulting string: valid sequences are copied, each maximal invalid prefix
(the lead byte together with its valid continuations, or a lone invalid
byte) is replaced by one U+FFFD, and a truncated final sequence becomes a
single U+FFFD. -/
def utf8Lossy : List Nat → List Nat
  | [] => []
  | b :: rest =>
    if b ≤ 127 then b :: utf8Lossy rest
    else if 194 ≤ b && b ≤ 223 then
      match rest with
      | [] => repl
      | c :: r2 =>
        if contOk c then b :: c :: utf8Lossy r2
        else repl ++ utf8Lossy (c :: r2)
    else if 224 ≤ b && b ≤ 239 then
      match rest with
      | [] => repl
      | c :: r2 =>
        if cont3Ok b c then
          match r2 with
          | [] => repl
          | d :: r3 =>
            if contOk d then b :: c :: d :: utf8Lossy r3
            else repl ++ utf8Lossy (d :: r3)
        else repl ++ utf8Lossy (c :: r2)
    else if 240 ≤ b && b ≤ 244 then
      match rest with
      | [] => repl
      | c :: r2 =>
        if cont4Ok b c then
          match r2 with
          | [] => repl
          | d :: r3 =>
            if contOk d then
              match r3 with
              | [] => repl
              | e :: r4 =>
                if contOk e then b :: c :: d :: e :: utf8Lossy r4
                else repl ++ utf8Lossy (e :: r4)
            else repl ++ utf8Lossy (d :: r3)
        else repl ++ utf8Lossy (c :: r2)
    else repl ++ utf8Lossy rest

/-- Value of a nonempty all-digit ASCII run, `none` if empty or any byte is
not an ASCII digit. -/
def digitsVal (ds : List Nat) : Option Nat :=
  if ds = [] then none
  else if ds.all (fun d => 48 ≤ d && d ≤ 57) then
    some (ds.foldl (fun a d => a * 10 + (d - 48)) 0)
  else none

/-- Mirror of `str::parse::<usize>`: optional leading `+`, then a nonempty
digit run; errors (here `none`) on a stray sign, a non-digit, or a value
that overflows 64-bit usize. -/
def parseUsizeStr (s : List Nat) : Option Nat :=
  let core := fun (ds : List Nat) =>
    match digitsVal ds with
    | some v => if v < 2 ^ 64 then some v else none
    | none => none
  match s with
  | 43 :: rest => core rest
  | _ => core s

/-- Mirror of `str::parse::<i64>`: optional sign, nonempty digit run, value
must fit in i64 (`-2^63 ..= 2^63 - 1`). -/
def parseI64Str (s : List Nat) : Option Int :=
  match s with
  | 43 :: rest =>
    match digitsVal rest with
    | some v => if v < 2 ^ 63 then some (v : Int) else none
    | none => none
  | 45 :: rest =>
    match digitsVal rest with
    | some v => if v ≤ 2 ^ 63 then some (-(v : Int)) else none
    | none => none
  | _ =>
    match digitsVal s with
    | some v => if v < 2 ^ 63 then some (v : Int) else none
    | none => none

/-- Mirror of `find_crlf(buf, nth)`: scan `for i in 1..buf.len()-1` for the
`nth` occurrence of CRLF and return the index of its `\r`. On an empty
slice the Rust code panics (the bound `buf.len() - 1` underflows under
overflow checks; without them the loop's first index access is out of
bounds), so the empty case is `crashed`; every other case is in bounds and
returns `ok` of the Rust `Option`. `findCrlfGo buf nth rem i count` runs
the remaining `rem` iterations starting at index `i` with `count` matches
seen so far. -/
def findCrlfGo (buf : List Nat) (nth : Nat) : Nat → Nat → Nat → Option Nat
  | 0, _, _ => none
  | rem + 1, i, count =>
    if buf.getD i 0 = 13 && buf.getD (i + 1) 0 = 10 then
      if count + 1 = nth then some i
      else findCrlfGo buf nth rem (i + 1) (count + 1)
    else findCrlfGo buf nth rem (i + 1) count

/-- See `findCrlfGo`. -/
def findCrlf (buf : List Nat) (nth : Nat) : DOut (Option Nat) :=
  if buf.length = 0 then .crashed
  else .ok (findCrlfGo buf nth (buf.length - 2) 1 0)

/-- Mirror of `extract_fixed_data(buf, expect, _)`: length check first
(short buffer is `NotComplete`), then the `starts_with` check
(`InvalidFrameType` on mismatch), and only on success advance past the
expected bytes. Returns the outcome paired with the remaining buffer. -/
def extractFixedData (buf : List Nat) (expect : List Nat) :
    DOut Unit × List Nat :=
  if buf.length < expect.length then (.err .notComplete, buf)
  else if expect.isPrefixOf buf then (.ok (), buf.drop expect.length)
  else (.err .invalidFrameType, buf)

/-- Mirror of `extract_simple_frame_data(buf, prefix)` with the one-byte
type character passed as the byte `pfx`: reject buffers shorter than a
minimal 3-byte frame with `NotComplete`, reject a wrong leading byte with
`InvalidFrameType`, then locate the first CRLF (`NotComplete` if absent)
and return the index of its `\r`. Pure: never touches the buffer. -/
def extractSimpleFrameData (buf : List Nat) (pfx : Nat) : DOut Nat :=
  if buf.length < 3 then .err .notComplete
  else if buf.head? ≠ some pfx then .err .invalidFrameType
  else
    match findCrlf buf 1 with
    | .ok (some endPos) => .ok endPos
    | .ok none => .err .notComplete
    | .err e => .err e
    | .crashed => .crashed
    | .fuelOut => .fuelOut

/-- Mirror of `parse_length(buf, prefix)`: run `extractSimpleFrameData`,
then parse `from_utf8_lossy(&buf[1..end])` as a usize; a parse failure is
`ParseIntError`. Returns `(end, length)`. -/
def parseLength (buf : List Nat) (pfx : Nat) : DOut (Nat × Nat) :=
  match extractSimpleFrameData buf pfx with
  | .ok endPos =>
    match parseUsizeStr (utf8Lossy ((buf.drop 1).take (endPos - 1))) with
    | some n => .ok (endPos, n)
    | none => .err .parseIntError
  | .err e => .err e
  | .crashed => .crashed
  | .fuelOut => .fuelOut

/-- Mirror of `cal_total_length(buf, len, prefix)`. The source slices
`&buf[len + CRLF_LEN..]` — `len` being the parsed element count, not the
header end — which panics when `len + 2 > buf.len()` (`crashed` here); it
then looks for the `len`th (for `*`/`~`) or `2*len`th (for `%`) CRLF in
that slice, `NotComplete` when absent. `findCrlf` on an empty slice also
panics (see above). -/
def calTotalLength (buf : List Nat) (len : Nat) (pfx : Nat) : DOut Nat :=
  if buf.length < len + 2 then .crashed
  else
    let data := buf.drop (len + 2)
    let nth := if pfx = 37 then len * 2 else len
    if pfx = 42 || pfx = 126 || pfx = 37 then
      match findCrlf data nth with
      | .ok (some endPos) => .ok (len + 2 + endPos)
      | .ok none => .err .notComplete
      | .err e => .err e
      | .crashed => .crashed
      | .fuelOut => .fuelOut
    else .ok (len + 2)

/-- Mirror of `SimpleString::decode` but returning the payload bytes: find
the first line, `split_to(end + 2)`, and take
`from_utf8_lossy(&data[1..end])` as the payload. The buffer is consumed
only on success. -/
def simpleStringDecode (buf : List Nat) : DOut (List Nat) × List Nat :=
  match extractSimpleFrameData buf 43 with
  | .ok endPos =>
    let data := buf.take (endPos + 2)
    (.ok (utf8Lossy ((data.drop 1).take (endPos - 1))), buf.drop (endPos + 2))
  | .err e => (.err e, buf)
  | .crashed => (.crashed, buf)
  | .fuelOut => (.fuelOut, buf)

/-- Mirror of `SimpleError::decode` (prefix `-`), payload bytes only. -/
def simpleErrorDecode (buf : List Nat) : DOut (List Nat) × List Nat :=
  match extractSimpleFrameData buf 45 with
  | .ok endPos =>
    let data := buf.take (endPos + 2)
    (.ok (utf8Lossy ((data.drop 1).take (endPos - 1))), buf.drop (endPos + 2))
  | .err e => (.err e, buf)
  | .crashed => (.crashed, buf)
  | .fuelOut => (.fuelOut, buf)

/-- Mirror of `BulkError::decode` (prefix `!`): like the source, it is
line-oriented — it reads only the first CRLF-terminated line. -/
def bulkErrorDecode (buf : List Nat) : DOut (List Nat) × List Nat :=
  match extractSimpleFrameData buf 33 with
  | .ok endPos =>
    let data := buf.take (endPos + 2)
    (.ok (utf8Lossy ((data.drop 1).take (endPos - 1))), buf.drop (endPos + 2))
  | .err e => (.err e, buf)
  | .crashed => (.crashed, buf)
  | .fuelOut => (.fuelOut, buf)

/-- Mirror of `impl RespDecode for i64` (prefix `:`): note the source
performs `buf.split_to(end + 2)` before parsing, so the line is consumed
even when the numeric parse then fails with `ParseIntError`. -/
def i64Decode (buf : List Nat) : DOut Int × List Nat :=
  match extractSimpleFrameData buf 58 with
  | .ok endPos =>
    let data := buf.take (endPos + 2)
    let rest := buf.drop (endPos + 2)
    match parseI64Str (utf8Lossy ((data.drop 1).take (endPos - 1))) with
    | some v => (.ok v, rest)
    | none => (.err .parseIntError, rest)
  | .err e => (.err e, buf)
  | .crashed => (.crashed, buf)
  | .fuelOut => (.fuelOut, buf)

/-- Mirror of `impl RespDecode for bool`: try the fixed `#t\r\n`, pass
`NotComplete` through, otherwise try `#f\r\n`. -/
def boolDecode (buf : List Nat) : DOut Bool × List Nat :=
  match extractFixedData buf (strBytes "#t\r\n") with
  | (.ok _, rest) => (.ok true, rest)
  | (.err .notComplete, rest) => (.err .notComplete, rest)
  | (.err _, _) =>
    match extractFixedData buf (strBytes "#f\r\n") with
    | (.ok _, rest) => (.ok false, rest)
    | (.err e, rest) => (.err e, rest)
    | (.crashed, rest) => (.crashed, rest)
    | (.fuelOut, rest) => (.fuelOut, rest)
  | (.crashed, rest) => (.crashed, rest)
  | (.fuelOut, rest) => (.fuelOut, rest)

/-- Mirror of `Null::decode`: exact `_\r\n` via `extract_fixed_data`. -/
def nullDecode (buf : List Nat) : DOut Frame × List Nat :=
  match extractFixedData buf (strBytes "_\r\n") with
  | (.ok _, rest) => (.ok .null, rest)
  | (.err e, rest) => (.err e, rest)
  | (.crashed, rest) => (.crashed, rest)
  | (.fuelOut, rest) => (.fuelOut, rest)

/-- Mirror of `NullArray::decode`: exact `*-1\r\n`. -/
def nullArrayDecode (buf : List Nat) : DOut Frame × List Nat :=
  match extractFixedData buf (strBytes "*-1\r\n") with
  | (.ok _, rest) => (.ok .nullArray, rest)
  | (.err e, rest) => (.err e, rest)
  | (.crashed, rest) => (.crashed, rest)
  | (.fuelOut, rest) => (.fuelOut, rest)

/-- Mirror of `NullBulkString::decode`: exact `$-1\r\n`. -/
def nullBulkStringDecode (buf : List Nat) : DOut Frame × List Nat :=
  match extractFixedData buf (strBytes "$-1\r\n") with
  | (.ok _, rest) => (.ok .nullBulkString, rest)
  | (.err e, rest) => (.err e, rest)
  | (.crashed, rest) => (.crashed, rest)
  | (.fuelOut, rest) => (.fuelOut, rest)

/-- Mirror of `BulkString::decode` (prefix `$`): parse the length line,
require `len + 2` further bytes after it (`NotComplete` otherwise, buffer
untouched), then advance past the header and split off payload plus CRLF.
The payload is copied verbatim, binary-safe. -/
def bulkStringDecode (buf : List Nat) : DOut (List Nat) × List Nat :=
  match parseLength buf 36 with
  | .ok (endPos, len) =>
    let remained := buf.drop (endPos + 2)
    if remained.length < len + 2 then (.err .notComplete, buf)
    else
      let b1 := buf.drop (endPos + 2)
      (.ok ((b1.take (len + 2)).take len), b1.drop (len + 2))
  | .err e => (.err e, buf)
  | .crashed => (.crashed, buf)
  | .fuelOut => (.fuelOut, buf)

/-- Mirror of `BTreeMap::<String, RespFrame>::insert` on the key-sorted
association list representation: keys are compared in the lexicographic
byte order of `String`, an equal key replaces the stored value (the
returned-old-value of the Rust API is discarded by the caller). -/
def btreeInsert (m : List (List Nat × Frame)) (k : List Nat) (v : Frame) :
    List (List Nat × Frame) :=
  match m with
  | [] => [(k, v)]
  | (k0, v0) :: rest =>
    if k < k0 then (k, v) :: (k0, v0) :: rest
    else if k = k0 then (k, v) :: rest
    else (k0, v0) :: btreeInsert rest k v

/-- Wrap a payload decoder outcome into a `RespFrame` outcome (the
`frame.into()` of each dispatch arm), leaving the buffer untouched. -/
def liftOut {α : Type} (g : α → Frame) :
    DOut α × List Nat → DOut Frame × List Nat
  | (.ok a, rest) => (.ok (g a), rest)
  | (.err e, rest) => (.err e, rest)
  | (.crashed, rest) => (.crashed, rest)
  | (.fuelOut, rest) => (.fuelOut, rest)

/-- The `for _ in 0..len` child loop of `Array::decode` / `Set::decode`:
decode `n` frames with the child decoder (`RespFrame::decode`, passed in
by `decodeFrame` one fuel level down), threading the buffer; a child error
propagates with the buffer in whatever state the children left it. -/
def frameLoop (child : List Nat → DOut Frame × List Nat) :
    Nat → List Nat → List Frame → DOut (List Frame) × List Nat
  | 0, b, acc => (.ok acc.reverse, b)
  | n + 1, b, acc =>
    match child b with
    | (.ok f, b1) => frameLoop child n b1 (f :: acc)
    | (.err e, b1) => (.err e, b1)
    | (.crashed, b1) => (.crashed, b1)
    | (.fuelOut, b1) => (.fuelOut, b1)

/-- The `for _ in 0..len` entry loop of `Map::decode`: a SimpleString key,
then a value frame decoded by the child decoder, then
`frames.insert(key, value)`. -/
def mapLoop (child : List Nat → DOut Frame × List Nat) :
    Nat → List Nat → List (List Nat × Frame) →
    DOut (List (List Nat × Frame)) × List Nat
  | 0, b, acc => (.ok acc, b)
  | n + 1, b, acc =>
    match simpleStringDecode b with
    | (.ok k, b1) =>
      match child b1 with
      | (.ok v, b2) => mapLoop child n b2 (btreeInsert acc k v)
      | (.err e, b2) => (.err e, b2)
      | (.crashed, b2) => (.crashed, b2)
      | (.fuelOut, b2) => (.fuelOut, b2)
    | (.err e, b1) => (.err e, b1)
    | (.crashed, b1) => (.crashed, b1)
    | (.fuelOut, b1) => (.fuelOut, b1)

/-- Mirror of `Array::decode` (prefix `*`): parse the count line, run the
`cal_total_length` pre-scan, require `total_len` buffered bytes
(`NotComplete` otherwise, buffer untouched), then advance past the header
and decode `len` child frames in sequence. -/
def arrayDecode (child : List Nat → DOut Frame × List Nat)
    (buf : List Nat) : DOut Frame × List Nat :=
  match parseLength buf 42 with
  | .ok (endPos, len) =>
    match calTotalLength buf len 42 with
    | .ok totalLen =>
      if buf.length < totalLen then (.err .notComplete, buf)
      else
        match frameLoop child len (buf.drop (endPos + 2)) [] with
        | (.ok items, rest) => (.ok (.array (FrameList.ofList items)), rest)
        | (.err e, rest) => (.err e, rest)
        | (.crashed, rest) => (.crashed, rest)
        | (.fuelOut, rest) => (.fuelOut, rest)
    | .err e => (.err e, buf)
    | .crashed => (.crashed, buf)
    | .fuelOut => (.fuelOut, buf)
  | .err e => (.err e, buf)
  | .crashed => (.crashed, buf)
  | .fuelOut => (.fuelOut, buf)

/-- Mirror of `Set::decode` (prefix `~`): same shape as `Array::decode`,
elements appended in arrival order with no deduplication. -/
def setDecode (child : List Nat → DOut Frame × List Nat)
    (buf : List Nat) : DOut Frame × List Nat :=
  match parseLength buf 126 with
  | .ok (endPos, len) =>
    match calTotalLength buf len 126 with
    | .ok totalLen =>
      if buf.length < totalLen then (.err .notComplete, buf)
      else
        match frameLoop child len (buf.drop (endPos + 2)) [] with
        | (.ok items, rest) => (.ok (.set (FrameList.ofList items)), rest)
        | (.err e, rest) => (.err e, rest)
        | (.crashed, rest) => (.crashed, rest)
        | (.fuelOut, rest) => (.fuelOut, rest)
    | .err e => (.err e, buf)
    | .crashed => (.crashed, buf)
    | .fuelOut => (.fuelOut, buf)
  | .err e => (.err e, buf)
  | .crashed => (.crashed, buf)
  | .fuelOut => (.fuelOut, buf)

/-- Mirror of `Map::decode` (src/resp/decode.rs lines 199-220). Note the
source sets `let prefix = "*"` and passes it to both `parse_length` and
`cal_total_length`, although this decoder is dispatched on `%`; the model
keeps byte 42 exactly as written. On success the loop alternates a
SimpleString key and a value frame, inserting into the BTreeMap. -/
def mapDecode (child : List Nat → DOut Frame × List Nat)
    (buf : List Nat) : DOut Frame × List Nat :=
  match parseLength buf 42 with
  | .ok (endPos, len) =>
    match calTotalLength buf len 42 with
    | .ok totalLen =>
      if buf.length < totalLen then (.err .notComplete, buf)
      else
        match mapLoop child len (buf.drop (endPos + 2)) [] with
        | (.ok entries, rest) =>
          (.ok (.map (EntryList.ofList entries)), rest)
        | (.err e, rest) => (.err e, rest)
        | (.crashed, rest) => (.crashed, rest)
        | (.fuelOut, rest) => (.fuelOut, rest)
    | .err e => (.err e, buf)
    | .crashed => (.crashed, buf)
    | .fuelOut => (.fuelOut, buf)
  | .err e => (.err e, buf)
  | .crashed => (.crashed, buf)
  | .fuelOut => (.fuelOut, buf)

/-- Mirror of `RespFrame::decode` (src/resp/decode.rs lines 13-70):
dispatch on the peeked first byte. The source has arms only for
`+ - * : # $ ~ % !`; an empty buffer and every other leading byte —
including `,` (Double) and `_` (Null), whose decoders exist but are never
called — fall to `Err(RespError::InvalidFrame("invalid frame type"))`.
For `*` and `$` the null sentinel is tried first, `NotComplete` is passed
through, and any other sentinel error falls back to the sized form over
the same (untouched) buffer. Container children are decoded one fuel
level down. -/
def decodeFrame : Nat → List Nat → DOut Frame × List Nat
  | 0, buf => (.fuelOut, buf)
  | fuel + 1, buf =>
    match buf.head? with
    | some 43 => liftOut .simpleString (simpleStringDecode buf)
    | some 45 => liftOut .simpleError (simpleErrorDecode buf)
    | some 42 =>
      match nullArrayDecode buf with
      | (.ok f, rest) => (.ok f, rest)
      | (.err .notComplete, rest) => (.err .notComplete, rest)
      | (.err _, _) => arrayDecode (decodeFrame fuel) buf
      | (.crashed, rest) => (.crashed, rest)
      | (.fuelOut, rest) => (.fuelOut, rest)
    | some 58 => liftOut .integer (i64Decode buf)
    | some 35 => liftOut .boolean (boolDecode buf)
    | some 36 =>
      match nullBulkStringDecode buf with
      | (.ok f, rest) => (.ok f, rest)
      | (.err .notComplete, rest) => (.err .notComplete, rest)
      | (.err _, _) => liftOut .bulkString (bulkStringDecode buf)
      | (.crashed, rest) => (.crashed, rest)
      | (.fuelOut, rest) => (.fuelOut, rest)
    | some 126 => setDecode (decodeFrame fuel) buf
    | some 37 => mapDecode (decodeFrame fuel) buf
    | some 33 => liftOut .bulkError (bulkErrorDecode buf)
    | _ => (.err .invalidFrame, buf)

/-- ASCII decimal digits of a natural number (the `Display` rendering of a
nonnegative integer used by the `format!` calls). The auxiliary fuel
argument (`n + 1` suffices, one unit per digit) only makes the recursion
structural; it never runs out. -/
def natToDecimalGo : Nat → Nat → List Nat
  | 0, _ => []
  | f + 1, n =>
    if n < 10 then [48 + n]
    else natToDecimalGo f (n / 10) ++ [48 + n % 10]

/-- See `natToDecimalGo`. -/
def natToDecimal (n : Nat) : List Nat := natToDecimalGo (n + 1) n

/-- Mirror of `impl RespEncode for SimpleString`:
`format!("+{}\r\n", self.0)`. Also used per entry by the Map encoder. -/
def encodeSimpleStringB (s : List Nat) : List Nat := 43 :: (s ++ crlfB)

/-- The `self.abs()` of the i64 encoder. On `i64::MIN` the absolute value
is not representable: the Rust call overflows, which panics under overflow
checks and is modelled as `none`; every other value yields its absolute
value. -/
def i64EncAbs (n : Int) : Option Nat :=
  if n = -(2 ^ 63) then none else some n.natAbs

/-- Mirror of `impl RespEncode for i64`:
`format!("{}{}\r\n", if self >= 0 then "+" else "-", self.abs())` — note:
no leading `:` type byte is emitted, and `abs()` fails on `i64::MIN`. -/
def encodeInteger (n : Int) : Option (List Nat) :=
  match i64EncAbs n with
  | some a => some ((if 0 ≤ n then [43] else [45]) ++ natToDecimal a ++ crlfB)
  | none => none

mutual

/-- Mirror of `impl RespEncode for RespFrame` via enum dispatch
(src/resp/encode.rs): each variant's canonical byte form. The only failure
path is `encodeInteger` on `i64::MIN`, propagated through containers. The
`fmt` parameter stands for the float-to-decimal rendering of the `f64`
encoder (format branch on `abs() > 1e8` included), which is floating-point
behaviour left unmodelled; no theorem below depends on it. -/
def encodeFrame (fmt : Nat → List Nat) : Frame → Option (List Nat)
  | .simpleString s => some (encodeSimpleStringB s)
  | .simpleError s => some (45 :: (s ++ crlfB))
  | .bulkError s =>
    some (33 :: (natToDecimal s.length ++ crlfB ++ s ++ crlfB))
  | .integer n => encodeInteger n
  | .bulkString b =>
    some (36 :: (natToDecimal b.length ++ crlfB ++ b ++ crlfB))
  | .nullBulkString => some (strBytes "$-1\r\n")
  | .array items =>
    match encodeItems fmt items with
    | some body =>
      some (42 :: (natToDecimal (FrameList.len items) ++ crlfB ++ body))
    | none => none
  | .nullArray => some (strBytes "*-1\r\n")
  | .null => some (strBytes "_\r\n")
  | .boolean b => some (35 :: ((if b then [116] else [102]) ++ crlfB))
  | .double bits => some (44 :: (fmt bits ++ crlfB))
  | .map entries =>
    match encodeEntries fmt entries with
    | some body =>
      some (37 :: (natToDecimal (EntryList.len entries) ++ crlfB ++ body))
    | none => none
  | .set items =>
    match encodeItems fmt items with
    | some body =>
      some (126 :: (natToDecimal (FrameList.len items) ++ crlfB ++ body))
    | none => none

/-- The element loop of the Array/Set encoders: concatenate the encodings
of the items in order. -/
def encodeItems (fmt : Nat → List Nat) : FrameList → Option (List Nat)
  | .nil => some []
  | .cons f fs =>
    match encodeFrame fmt f with
    | some e =>
      match encodeItems fmt fs with
      | some r => some (e ++ r)
      | none => none
    | none => none

/-- The entry loop of the Map encoder: for each `(key, value)` in storage
order, `SimpleString::new(key).encode()` followed by the value encoding. -/
def encodeEntries (fmt : Nat → List Nat) : EntryList → Option (List Nat)
  | .nil => some []
  | .cons k v rest =>
    match encodeFrame fmt v with
    | some ev =>
      match encodeEntries fmt rest with
      | some er => some (encodeSimpleStringB k ++ ev ++ er)
      | none => none
    | none => none

/-- `Vec::len` of a `FrameList`. -/
def FrameList.len : FrameList → Nat
  | .nil => 0
  | .cons _ fs => 1 + FrameList.len fs

/-- `BTreeMap::len` of an `EntryList`. -/
def EntryList.len : EntryList → Nat
  | .nil => 0
  | .cons _ _ rest => 1 + EntryList.len rest

end

/-
Helper lemmas.
-/

/-- One dispatch step of `RespFrame::decode` on a `$`-led buffer: try the
NullBulkString sentinel, pass `NotComplete` through, otherwise fall back
to `BulkString::decode`. Holds definitionally. -/
theorem decode_dollar_step (fuel : Nat) (x : List Nat) :
    decodeFrame (fuel + 1) (36 :: x) =
      match nullBulkStringDecode (36 :: x) with
      | (.ok f, rest) => (.ok f, rest)
      | (.err .notComplete, rest) => (.err .notComplete, rest)
      | (.err _, _) => liftOut .bulkString (bulkStringDecode (36 :: x))
      | (.crashed, rest) => (.crashed, rest)
      | (.fuelOut, rest) => (.fuelOut, rest) := rfl

/-- One dispatch step of `RespFrame::decode` on a `*`-led buffer: try the
NullArray sentinel, pass `NotComplete` through, otherwise fall back to
`Array::decode`. Holds definitionally. -/
theorem decode_star_step (fuel : Nat) (x : List Nat) :
    decodeFrame (fuel + 1) (42 :: x) =
      match nullArrayDecode (42 :: x) with
      | (.ok f, rest) => (.ok f, rest)
      | (.err .notComplete, rest) => (.err .notComplete, rest)
      | (.err _, _) => arrayDecode (decodeFrame fuel) (42 :: x)
      | (.crashed, rest) => (.crashed, rest)
      | (.fuelOut, rest) => (.fuelOut, rest) := rfl

/-- `extract_fixed_data` on a buffer shorter than the expected pattern:
`NotComplete`, buffer untouched. -/
theorem extractFixedData_short (buf expect : List Nat)
    (h : buf.length < expect.length) :
    extractFixedData buf expect = (.err .notComplete, buf) := by
  unfold extractFixedData
  simp [h]

/-- `extract_fixed_data` when the expected pattern is a prefix of the
buffer: success, consuming exactly the pattern. -/
theorem extractFixedData_hit (buf expect : List Nat) (h : expect <+: buf) :
    extractFixedData buf expect = (.ok (), buf.drop expect.length) := by
  unfold extractFixedData
  have hl : ¬ buf.length < expect.length := Nat.not_lt.mpr h.length_le
  simp [hl, List.isPrefixOf_iff_prefix.mpr h]

/-- `extract_fixed_data` on a long-enough buffer that does not start with
the expected pattern: `InvalidFrameType`, buffer untouched. -/
theorem extractFixedData_miss (buf expect : List Nat)
    (hlen : expect.length ≤ buf.length) (h : ¬ expect <+: buf) :
    extractFixedData buf expect = (.err .invalidFrameType, buf) := by
  unfold extractFixedData
  have hl : ¬ buf.length < expect.length := Nat.not_lt.mpr hlen
  have hp : expect.isPrefixOf buf = false := by
    rw [Bool.eq_false_iff]
    intro hc
    exact h (List.isPrefixOf_iff_prefix.mp hc)
  simp [hl, hp]

/-- The `BTreeMap` contents produced by a sequence of `insert` calls
starting from the empty map (`BTreeMap::new` plus inserts, as in
`BTreeMap::from_iter` and the entry loop of `Map::decode`). -/
def mkBTreeMap (ops : List (List Nat × Frame)) : List (List Nat × Frame) :=
  ops.foldl (fun m kv => btreeInsert m kv.1 kv.2) []

/-- Every entry of `btreeInsert m k v` either carries the inserted key or
was already in `m`. -/
theorem mem_btreeInsert (m : List (List Nat × Frame)) (k : List Nat)
    (v : Frame) (p : List Nat × Frame) (hp : p ∈ btreeInsert m k v) :
    p.1 = k ∨ p ∈ m := by
  induction m with
  | nil =>
    simp [btreeInsert] at hp
    subst hp
    exact Or.inl rfl
  | cons kv0 rest ih =>
    obtain ⟨k0, v0⟩ := kv0
    unfold btreeInsert at hp
    by_cases h1 : k < k0
    · simp only [if_pos h1, List.mem_cons] at hp
      rcases hp with rfl | hp2
      · exact Or.inl rfl
      · exact Or.inr (List.mem_cons.mpr hp2)
    · by_cases h2 : k = k0
      · simp only [if_neg h1, if_pos h2, List.mem_cons] at hp
        rcases hp with rfl | hp2
        · exact Or.inl rfl
        · exact Or.inr (List.mem_cons.mpr (Or.inr hp2))
      · simp only [if_neg h1, if_neg h2, List.mem_cons] at hp
        rcases hp with rfl | hp2
        · exact Or.inr (List.mem_cons.mpr (Or.inl rfl))
        · rcases ih hp2 with hk | hm
          · exact Or.inl hk
          · exact Or.inr (List.mem_cons.mpr (Or.inr hm))

/-- `btreeInsert` preserves the strict ascending key order of the sorted
association list (the `BTreeMap` invariant). -/
theorem pairwise_btreeInsert (m : List (List Nat × Frame)) (k : List Nat)
    (v : Frame)
    (h : List.Pairwise (fun a b : List Nat × Frame => a.1 < b.1) m) :
    List.Pairwise (fun a b : List Nat × Frame => a.1 < b.1)
      (btreeInsert m k v) := by
  induction m with
  | nil => simp [btreeInsert]
  | cons kv0 rest ih =>
    obtain ⟨k0, v0⟩ := kv0
    rw [List.pairwise_cons] at h
    obtain ⟨h0, hrest⟩ := h
    unfold btreeInsert
    by_cases h1 : k < k0
    · simp only [if_pos h1]
      refine List.Pairwise.cons ?_ (List.Pairwise.cons h0 hrest)
      intro b hb
      rcases List.mem_cons.mp hb with rfl | hb2
      · exact h1
      · exact lt_trans h1 (h0 b hb2)
    · by_cases h2 : k = k0
      · simp only [if_neg h1, if_pos h2]
        subst h2
        exact List.Pairwise.cons h0 hrest
      · simp only [if_neg h1, if_neg h2]
        refine List.Pairwise.cons ?_ (ih hrest)
        intro b hb
        have hk0k : k0 < k := by
          rcases lt_trichotomy k k0 with hlt | heq | hgt
          · exact absurd hlt h1
          · exact absurd heq h2
          · exact hgt
        rcases mem_btreeInsert rest k v b hb with hbk | hbm
        · rw [hbk]
          exact hk0k
        · exact h0 b hbm

/-- Folding `btreeInsert` over any operation sequence preserves the strict
ascending key order. -/
theorem pairwise_mkBTreeMapAux (ops : List (List Nat × Frame))
    (m : List (List Nat × Frame))
    (h : List.Pairwise (fun a b : List Nat × Frame => a.1 < b.1) m) :
    List.Pairwise (fun a b : List Nat × Frame => a.1 < b.1)
      (ops.foldl (fun acc kv => btreeInsert acc kv.1 kv.2) m) := by
  induction ops generalizing m with
  | nil => exact h
  | cons kv rest ih => exact ih _ (pairwise_btreeInsert _ _ _ h)

/-- `EntryList.ofList` preserves the entry count. -/
theorem EntryList.len_ofList (m : List (List Nat × Frame)) :
    EntryList.len (EntryList.ofList m) = m.length := by
  induction m with
  | nil => rfl
  | cons kv rest ih =>
    obtain ⟨k, v⟩ := kv
    simp [EntryList.ofList, EntryList.len, ih]
    omega

/-- Structure of the Map encoder's entry loop: whenever it succeeds, its
output is exactly, entry by entry in storage order, the key encoded as a
SimpleString followed by the value's own encoding. -/
theorem encodeEntries_ofList (fmt : Nat → List Nat)
    (m : List (List Nat × Frame)) (body : List Nat)
    (h : encodeEntries fmt (EntryList.ofList m) = some body) :
    ∃ vbs : List (List Nat),
      List.Forall₂ (fun kv vb => encodeFrame fmt kv.2 = some vb) m vbs ∧
      body = (List.zipWith
        (fun (kv : List Nat × Frame) vb => encodeSimpleStringB kv.1 ++ vb)
        m vbs).flatten := by
  induction m generalizing body with
  | nil =>
    simp [EntryList.ofList, encodeEntries] at h
    subst h
    exact ⟨[], List.Forall₂.nil, rfl⟩
  | cons kv rest ih =>
    obtain ⟨k, v⟩ := kv
    rw [EntryList.ofList] at h
    rw [encodeEntries] at h
    cases hv : encodeFrame fmt v with
    | none => rw [hv] at h; simp at h
    | some ev =>
      rw [hv] at h
      cases hr : encodeEntries fmt (EntryList.ofList rest) with
      | none => rw [hr] at h; simp at h
      | some er =>
        rw [hr] at h
        simp only [Option.some.injEq] at h
        obtain ⟨vbs, hf, hb⟩ := ih er hr
        refine ⟨ev :: vbs, List.Forall₂.cons hv hf, ?_⟩
        rw [← h, hb]
        simp [List.append_assoc]

/-
Claim theorems.
-/

/-- Claim C1. The round-trip property `decode(encode(f)) == f` fails on
the code: the i64 encoder emits `+42\r\n` without the `:` type byte, so
decoding the encoding of `Integer 42` yields `SimpleString "42"`, a
different frame. (The claim also fails for Null, Double and Map frames,
whose decoders are unreachable or mis-prefixed; see C3 and C5.) -/
theorem c1_roundtrip_fails_on_integer (fmt : Nat → List Nat) :
    encodeFrame fmt (.integer 42) = some (strBytes "+42\r\n") ∧
    decodeFrame 10 (strBytes "+42\r\n") =
      (.ok (.simpleString (strBytes "42")), []) ∧
    Frame.simpleString (strBytes "42") ≠ Frame.integer 42 :=
  ⟨rfl, rfl, fun h => Frame.noConfusion h⟩

/-- Claim C2. Feeding a strict non-empty prefix of a complete frame
encoding does not always yield NeedMoreData with zero consumption: the
first five bytes `*10\r\n` of the 25-byte encoding of a 10-element array
of Nulls make `cal_total_length` slice `&buf[12..]` out of bounds — decode
panics instead of returning NeedMoreData. -/
theorem c2_strict_prefix_panics (fmt : Nat → List Nat) :
    encodeFrame fmt (.array (FrameList.ofList (List.replicate 10 .null))) =
      some (strBytes "*10\r\n" ++
        (List.replicate 10 (strBytes "_\r\n")).flatten) ∧
    (strBytes "*10\r\n" ++
      (List.replicate 10 (strBytes "_\r\n")).flatten).take 5 =
      strBytes "*10\r\n" ∧
    5 < (strBytes "*10\r\n" ++
      (List.replicate 10 (strBytes "_\r\n")).flatten).length ∧
    decodeFrame 20 (strBytes "*10\r\n") = (.crashed, strBytes "*10\r\n") :=
  ⟨rfl, rfl, by decide, rfl⟩

/-- Claim C3. Dispatch is not one-to-one with the eleven type-prefix
characters: the source match has no arm for `_` (Null) or `,` (Double), so
both fall to the default `InvalidFrame` arm even though `Null::decode`
accepts `_\r\n` (third conjunct); an empty buffer also yields
`InvalidFrame`, as the claim says. -/
theorem c3_dispatch_missing_null_double :
    decodeFrame 10 (strBytes "_\r\n") =
      (.err .invalidFrame, strBytes "_\r\n") ∧
    decodeFrame 10 (strBytes ",3.14\r\n") =
      (.err .invalidFrame, strBytes ",3.14\r\n") ∧
    nullDecode (strBytes "_\r\n") = (.ok .null, []) ∧
    decodeFrame 10 [] = (.err .invalidFrame, []) :=
  ⟨rfl, rfl, rfl, rfl⟩

/-- Claim C4. Decode does not always return one of the three outcomes: a
buffer whose Set/Array count plus two exceeds the buffered length makes
`cal_total_length` slice `&buf[len + 2..]` out of bounds — a panic
(`crashed`), not NeedMoreData or MalformedFrame. -/
theorem c4_count_header_panics :
    decodeFrame 10 (strBytes "~16\r\n") = (.crashed, strBytes "~16\r\n") ∧
    decodeFrame 10 (strBytes "*6\r\nA") = (.crashed, strBytes "*6\r\nA") :=
  ⟨rfl, rfl⟩

/-- Claim C5. A complete Map frame is never decoded: `Map::decode` passes
prefix `"*"` to `parse_length`, so any `%`-led buffer fails the prefix
check with `InvalidFrameType` (MalformedFrame) instead of producing the
Map. -/
theorem c5_map_decode_rejects_percent :
    decodeFrame 10 (strBytes "%1\r\n+key\r\n+val\r\n") =
      (.err .invalidFrameType, strBytes "%1\r\n+key\r\n+val\r\n") ∧
    parseLength (strBytes "%1\r\n+key\r\n+val\r\n") 42 =
      .err .invalidFrameType :=
  ⟨rfl, rfl⟩

/-- Claim C6. For `$`- and `*`-led buffers the fixed null sentinel is
tried first: a buffer starting with the five sentinel bytes decodes to the
null frame consuming exactly them; a buffer shorter than five bytes gets
NeedMoreData with the buffer untouched (the sentinel attempt cannot tell),
and a buffer of five or more bytes that does not start with the sentinel
falls back to the sized-form parser on the untouched buffer. -/
theorem c6_null_sentinel_first (fuel : Nat) (buf : List Nat) :
    (strBytes "$-1\r\n" <+: buf →
      decodeFrame (fuel + 1) buf = (.ok .nullBulkString, buf.drop 5)) ∧
    (buf.head? = some 36 → buf.length < 5 →
      decodeFrame (fuel + 1) buf = (.err .notComplete, buf)) ∧
    (buf.head? = some 36 → 5 ≤ buf.length → ¬ strBytes "$-1\r\n" <+: buf →
      decodeFrame (fuel + 1) buf =
        liftOut .bulkString (bulkStringDecode buf)) ∧
    (strBytes "*-1\r\n" <+: buf →
      decodeFrame (fuel + 1) buf = (.ok .nullArray, buf.drop 5)) ∧
    (buf.head? = some 42 → buf.length < 5 →
      decodeFrame (fuel + 1) buf = (.err .notComplete, buf)) ∧
    (buf.head? = some 42 → 5 ≤ buf.length → ¬ strBytes "*-1\r\n" <+: buf →
      decodeFrame (fuel + 1) buf = arrayDecode (decodeFrame fuel) buf) := by
  refine ⟨?_, ?_, ?_, ?_, ?_, ?_⟩
  · intro h
    obtain ⟨t, rfl⟩ := h
    rw [show strBytes "$-1\r\n" ++ t = 36 :: (strBytes "-1\r\n" ++ t)
      from rfl, decode_dollar_step]
    have h1 : nullBulkStringDecode (36 :: (strBytes "-1\r\n" ++ t)) =
        (.ok .nullBulkString, t) := by
      unfold nullBulkStringDecode
      rw [extractFixedData_hit (36 :: (strBytes "-1\r\n" ++ t))
        (strBytes "$-1\r\n") ⟨t, rfl⟩]
      simp [strBytes]
    rw [h1]
    simp [strBytes]
  · intro hhead hlen
    match buf, hhead with
    | 36 :: x, _ =>
      rw [decode_dollar_step]
      have h1 : nullBulkStringDecode (36 :: x) =
          (.err .notComplete, 36 :: x) := by
        unfold nullBulkStringDecode
        rw [extractFixedData_short]
        simpa [strBytes] using hlen
      rw [h1]
  · intro hhead hlen hpre
    match buf, hhead with
    | 36 :: x, _ =>
      rw [decode_dollar_step]
      have h1 : nullBulkStringDecode (36 :: x) =
          (.err .invalidFrameType, 36 :: x) := by
        unfold nullBulkStringDecode
        rw [extractFixedData_miss]
        · simpa [strBytes] using hlen
        · exact hpre
      rw [h1]
  · intro h
    obtain ⟨t, rfl⟩ := h
    rw [show strBytes "*-1\r\n" ++ t = 42 :: (strBytes "-1\r\n" ++ t)
      from rfl, decode_star_step]
    have h1 : nullArrayDecode (42 :: (strBytes "-1\r\n" ++ t)) =
        (.ok .nullArray, t) := by
      unfold nullArrayDecode
      rw [extractFixedData_hit (42 :: (strBytes "-1\r\n" ++ t))
        (strBytes "*-1\r\n") ⟨t, rfl⟩]
      simp [strBytes]
    rw [h1]
    simp [strBytes]
  · intro hhead hlen
    match buf, hhead with
    | 42 :: x, _ =>
      rw [decode_star_step]
      have h1 : nullArrayDecode (42 :: x) =
          (.err .notComplete, 42 :: x) := by
        unfold nullArrayDecode
        rw [extractFixedData_short]
        simpa [strBytes] using hlen
      rw [h1]
  · intro hhead hlen hpre
    match buf, hhead with
    | 42 :: x, _ =>
      rw [decode_star_step]
      have h1 : nullArrayDecode (42 :: x) =
          (.err .invalidFrameType, 42 :: x) := by
        unfold nullArrayDecode
        rw [extractFixedData_miss]
        · simpa [strBytes] using hlen
        · exact hpre
      rw [h1]

/-- Claim C6, witness: the exact buffer `$-1\r\n` decodes to
NullBulkString; the four-byte `*1\r\n` yields NeedMoreData untouched; the
non-sentinel `$5\r\nhello\r\n` falls back to `BulkString::decode`. -/
theorem c6_null_sentinel_first_witness :
    decodeFrame 1 (strBytes "$-1\r\n") =
      (.ok .nullBulkString, (strBytes "$-1\r\n").drop 5) ∧
    decodeFrame 1 (strBytes "*1\r\n") =
      (.err .notComplete, strBytes "*1\r\n") ∧
    decodeFrame 1 (strBytes "$5\r\nhello\r\n") =
      liftOut .bulkString (bulkStringDecode (strBytes "$5\r\nhello\r\n")) :=
  ⟨(c6_null_sentinel_first 0 (strBytes "$-1\r\n")).1 List.prefix_rfl,
    (c6_null_sentinel_first 0 (strBytes "*1\r\n")).2.2.2.2.1 rfl (by decide),
    (c6_null_sentinel_first 0 (strBytes "$5\r\nhello\r\n")).2.2.1 rfl
      (by decide) (by decide)⟩

/-- Claim C7. Line-oriented decode failures are not reported as the claim
says: an Integer line with a non-numeric payload is consumed before the
parse runs, so the buffer IS mutated (`:abc\r\n` is eaten, the remaining
buffer is empty) even though `ParseIntError` is returned; and a
SimpleString with non-UTF-8 payload succeeds via `from_utf8_lossy`
(yielding U+FFFD) instead of returning a MalformedFrame UTF-8 error. -/
theorem c7_parse_failures_mutate_and_lossy :
    decodeFrame 10 (strBytes ":abc\r\n") = (.err .parseIntError, []) ∧
    ([] : List Nat) ≠ strBytes ":abc\r\n" ∧
    decodeFrame 10 [43, 255, 13, 10] = (.ok (.simpleString repl), []) :=
  ⟨rfl, by decide, rfl⟩

/-- Claim C8. Integer encoding emits sign, absolute value and CRLF for
-42, 0 and 42, but not "always": at `i64::MIN` the `abs()` call overflows
(a panic under overflow checks), so no sign-and-absolute-value byte string
is produced. -/
theorem c8_integer_sign_abs_fails_at_min :
    encodeInteger (-42) = some (strBytes "-42\r\n") ∧
    encodeInteger 0 = some (strBytes "+0\r\n") ∧
    encodeInteger 42 = some (strBytes "+42\r\n") ∧
    encodeInteger (-(2 ^ 63)) = none :=
  ⟨rfl, rfl, rfl, rfl⟩

/-- Claim C9. Encode is not total: the frame `Integer(i64::MIN)` has a
failure path — `self.abs()` overflows. -/
theorem c9_encode_not_total (fmt : Nat → List Nat) :
    encodeFrame fmt (.integer (-(2 ^ 63))) = none := rfl

/-- Claim C10, counterexample: the canonical duplicate-key Map wire
`%2\r\n+k\r\n+a\r\n+k\r\n+b\r\n` does not decode to a Map holding the last
value and fewer entries than declared — decoding rejects it outright with
`InvalidFrameType` (Map::decode expects prefix `*`), so no Map value is
ever produced by decoding. -/
theorem c10_decode_never_produces_map :
    decodeFrame 10 (strBytes "%2\r\n+k\r\n+a\r\n+k\r\n+b\r\n") =
      (.err .invalidFrameType, strBytes "%2\r\n+k\r\n+a\r\n+k\r\n+b\r\n") :=
  rfl

/-- Claim C10, amended: every Map built by BTreeMap inserts (the
constructor path; decoding never produces a Map) holds its entries with
strictly ascending — hence unique — keys, and whenever encoding such a Map
succeeds its output is the `%` count header followed, entry by entry in
that sorted storage order, by the key encoded as a SimpleString and then
the value's encoding. -/
theorem c10_map_sorted_insert_encode (fmt : Nat → List Nat)
    (ops : List (List Nat × Frame)) (bs : List Nat)
    (h : encodeFrame fmt (.map (EntryList.ofList (mkBTreeMap ops))) =
      some bs) :
    List.Pairwise (fun a b : List Nat × Frame => a.1 < b.1)
      (mkBTreeMap ops) ∧
    ∃ vbs : List (List Nat),
      List.Forall₂ (fun kv vb => encodeFrame fmt kv.2 = some vb)
        (mkBTreeMap ops) vbs ∧
      bs = 37 :: (natToDecimal (mkBTreeMap ops).length ++ crlfB ++
        (List.zipWith
          (fun (kv : List Nat × Frame) vb => encodeSimpleStringB kv.1 ++ vb)
          (mkBTreeMap ops) vbs).flatten) := by
  refine ⟨pairwise_mkBTreeMapAux ops [] List.Pairwise.nil, ?_⟩
  rw [encodeFrame] at h
  cases hb : encodeEntries fmt (EntryList.ofList (mkBTreeMap ops)) with
  | none => rw [hb] at h; simp at h
  | some body =>
    rw [hb] at h
    simp only [Option.some.injEq] at h
    obtain ⟨vbs, hf, hbody⟩ :=
      encodeEntries_ofList fmt (mkBTreeMap ops) body hb
    refine ⟨vbs, hf, ?_⟩
    rw [← h, EntryList.len_ofList, hbody]

/-- Claim C10, witness: inserting `b := Null`, `a := Boolean true`,
`a := Null` yields the two-entry map `a := Null, b := Null` (sorted,
deduplicated, last value kept), and its encoding is
`%2\r\n+a\r\n_\r\n+b\r\n_\r\n`. -/
theorem c10_map_sorted_insert_encode_witness :
    List.Pairwise (fun a b : List Nat × Frame => a.1 < b.1)
      (mkBTreeMap [([98], .null), ([97], .boolean true), ([97], .null)]) ∧
    ∃ vbs : List (List Nat),
      List.Forall₂ (fun kv vb => encodeFrame (fun _ => []) kv.2 = some vb)
        (mkBTreeMap [([98], .null), ([97], .boolean true), ([97], .null)])
        vbs ∧
      strBytes "%2\r\n+a\r\n_\r\n+b\r\n_\r\n" = 37 :: (natToDecimal
        (mkBTreeMap
          [([98], .null), ([97], .boolean true), ([97], .null)]).length
        ++ crlfB ++
        (List.zipWith
          (fun (kv : List Nat × Frame) vb => encodeSimpleStringB kv.1 ++ vb)
          (mkBTreeMap [([98], .null), ([97], .boolean true), ([97], .null)])
          vbs).flatten) :=
  c10_map_sorted_insert_encode (fun _ => [])
    [([98], .null), ([97], .boolean true), ([97], .null)]
    (strBytes "%2\r\n+a\r\n_\r\n+b\r\n_\r\n") rfl
